import Mathlib

/-!
Shallow embedding of the Prusti specification collector
(`prusti-interface/src/specs/mod.rs`).

Entity identities (`DefId`, `LocalDefId`) and specification identifiers
(`SpecificationId`) are abstracted as natural numbers; `to_def_id` is the
identity under this abstraction.  Rust `HashMap`s are modelled as
association lists with distinct keys (`alookup` / `ainsert` / `aerase`
mirror `get` / `insert` / `remove`; `HashMap::insert` replaces any
existing binding).  A Rust `panic!` / `unwrap` failure — which aborts the
build — is modelled by an `Option`-valued function returning `none`.
Emitted `PrustiError` diagnostics are collected in an explicit list.
-/

abbrev LocalDefId := Nat
abbrev DefId := Nat
abbrev SpecificationId := Nat

/-- Association-list lookup, modelling `HashMap::get`. -/
def alookup {α : Type} (k : Nat) : List (Nat × α) → Option α
  | [] => none
  | (k', v) :: rest => if k' = k then some v else alookup k rest

/-- Association-list insert-or-replace, modelling `HashMap::insert`
(the new binding replaces an existing one for the same key). -/
def ainsert {α : Type} (k : Nat) (v : α) : List (Nat × α) → List (Nat × α)
  | [] => [(k, v)]
  | (k', v') :: rest => if k' = k then (k, v) :: rest else (k', v') :: ainsert k v rest

/-- Association-list removal, modelling `HashMap::remove`. -/
def aerase {α : Type} (k : Nat) : List (Nat × α) → List (Nat × α)
  | [] => []
  | (k', v') :: rest => if k' = k then rest else (k', v') :: aerase k rest

/-- Association-list upsert, modelling `HashMap::entry(k).or_default()`
followed by a mutation of the entry. -/
def amodify {α : Type} (k : Nat) (f : α → α) (dflt : α) : List (Nat × α) → List (Nat × α)
  | [] => [(k, f dflt)]
  | (k', v) :: rest => if k' = k then (k, f v) :: rest else (k', v) :: amodify k f dflt rest

/-- `typed::SpecIdRef`: a scanner-produced reference to a specification
clause, not yet resolved against the specification-body table. -/
inductive SpecIdRef where
  | precondition (s : SpecificationId)
  | postcondition (s : SpecificationId)
  | pledge (lhs : Option SpecificationId) (rhs : SpecificationId)
  | predicate (s : SpecificationId)
  deriving DecidableEq, Repr

/-- `typed::ProcedureSpecificationKind`. -/
inductive ProcedureSpecificationKind where
  | impure
  | pure
  | predicate (body : Option DefId)
  deriving DecidableEq, Repr

/-- `typed::SpecificationItem`: the provenance-tagged wrapper around a
specification component. -/
inductive SpecificationItem (α : Type) where
  | empty
  | inherent (a : α)
  | inherited (a : α)
  | refined (base new : α)
  deriving DecidableEq, Repr

/-- `SpecificationItem::expect_inherent`: panics (models as `none`)
unless the item is `Inherent`. -/
def SpecificationItem.expect_inherent {α : Type} : SpecificationItem α → Option α
  | .inherent a => some a
  | _ => none

/-- `typed::Pledge`; the `reference` field is always `None` in the
collector (only the distinguished `result` reference is supported). -/
structure Pledge where
  reference : Option DefId
  lhs : Option DefId
  rhs : DefId
  deriving DecidableEq, Repr

/-- Modelled from the spec: `typed::ProcedureSpecification` (defined in
`specs/typed.rs`, which is not among the provided sources) — the contract
record for one procedure: preconditions, postconditions, pledges, the
`trusted` flag and the kind.  `empty d` is `ProcedureSpecification::empty`,
carrying the source entity and no clauses. -/
structure ProcedureSpecification where
  source : DefId
  pres : List DefId
  posts : List DefId
  pledges : List Pledge
  trusted : SpecificationItem Bool
  kind : SpecificationItem ProcedureSpecificationKind
  deriving DecidableEq, Repr

def ProcedureSpecification.empty (d : DefId) : ProcedureSpecification :=
  ⟨d, [], [], [], .empty, .empty⟩

/-- Modelled from the spec: `typed::SpecGraph` — the base specification
plus zero or more ghost-constrained variants, each keyed by its
constraint. -/
structure SpecGraph where
  base_spec : ProcedureSpecification
  specs_with_constraints : List (Nat × ProcedureSpecification)
  deriving DecidableEq, Repr

def SpecGraph.new (base : ProcedureSpecification) : SpecGraph := ⟨base, []⟩

/-- The builder's read-only environment: `constraintOf d` is the ghost
constraint attached to the specification-body entity `d`, if any
(modelled from the spec; a constrained clause populates a constrained
variant of the graph instead of the base specification). -/
structure BuildEnv where
  constraintOf : LocalDefId → Option Nat

def addPreTo (d : DefId) (s : ProcedureSpecification) : ProcedureSpecification :=
  { s with pres := s.pres ++ [d] }

def addPostTo (d : DefId) (s : ProcedureSpecification) : ProcedureSpecification :=
  { s with posts := s.posts ++ [d] }

def addPledgeTo (p : Pledge) (s : ProcedureSpecification) : ProcedureSpecification :=
  { s with pledges := s.pledges ++ [p] }

/-- Modelled from the spec: attach a clause to the graph.  An
unconstrained clause goes to the base specification and to every
constrained variant; a clause carrying constraint `c` goes only to the
variant for `c`, created from the current base specification if absent. -/
def SpecGraph.addClause (g : SpecGraph) (spec_fn : LocalDefId) (env : BuildEnv)
    (f : DefId → ProcedureSpecification → ProcedureSpecification) : SpecGraph :=
  match env.constraintOf spec_fn with
  | none =>
      { base_spec := f spec_fn g.base_spec,
        specs_with_constraints := g.specs_with_constraints.map (fun p => (p.1, f spec_fn p.2)) }
  | some c =>
      { base_spec := g.base_spec,
        specs_with_constraints := amodify c (f spec_fn) g.base_spec g.specs_with_constraints }

/-- Modelled from the spec: `SpecGraph::add_precondition`. -/
def SpecGraph.add_precondition (g : SpecGraph) (spec_fn : LocalDefId) (env : BuildEnv) : SpecGraph :=
  g.addClause spec_fn env addPreTo

/-- Modelled from the spec: `SpecGraph::add_postcondition`. -/
def SpecGraph.add_postcondition (g : SpecGraph) (spec_fn : LocalDefId) (env : BuildEnv) : SpecGraph :=
  g.addClause spec_fn env addPostTo

/-- Modelled from the spec: `SpecGraph::add_pledge` (pledges are attached
to the base specification and every variant). -/
def SpecGraph.add_pledge (g : SpecGraph) (p : Pledge) : SpecGraph :=
  { base_spec := addPledgeTo p g.base_spec,
    specs_with_constraints := g.specs_with_constraints.map (fun q => (q.1, addPledgeTo p q.2)) }

/-- Modelled from the spec: `SpecGraph::set_trusted` applies the trusted
flag verbatim to the base specification and every variant. -/
def SpecGraph.set_trusted (g : SpecGraph) (t : Bool) : SpecGraph :=
  { base_spec := { g.base_spec with trusted := .inherent t },
    specs_with_constraints :=
      g.specs_with_constraints.map (fun q => (q.1, { q.2 with trusted := .inherent t })) }

/-- Modelled from the spec: `SpecGraph::set_kind` records the derived
kind on the base specification and every variant. -/
def SpecGraph.set_kind (g : SpecGraph) (k : ProcedureSpecificationKind) : SpecGraph :=
  { base_spec := { g.base_spec with kind := .inherent k },
    specs_with_constraints :=
      g.specs_with_constraints.map (fun q => (q.1, { q.2 with kind := .inherent k })) }

/-- `ProcedureSpecRefs`: the per-procedure scanner record. -/
structure ProcedureSpecRefs where
  spec_id_refs : List SpecIdRef
  pure : Bool
  abstract_predicate : Bool
  trusted : Bool
  deriving DecidableEq, Repr

/-- `TypeSpecRefs`: the per-type scanner record. -/
structure TypeSpecRefs where
  invariants : List LocalDefId
  trusted : Bool
  deriving DecidableEq, Repr

instance : Inhabited TypeSpecRefs := ⟨⟨[], false⟩⟩

/-- The two feature flags read from `prusti_common::config`. -/
structure Config where
  enable_ghost_constraints : Bool
  enable_type_invariants : Bool
  deriving DecidableEq, Repr

/-- A source position carried by a diagnostic: either the span of a
definition, or the synthetic `DUMMY_SP` position. -/
inductive SpanM where
  | ofDef (d : Nat)
  | dummy
  deriving DecidableEq, Repr

/-- The `PrustiError` constructor used for a diagnostic. -/
inductive DiagKind where
  | unsupported
  | incorrect
  | internal
  deriving DecidableEq, Repr

/-- An emitted diagnostic. -/
structure Diagnostic where
  kind : DiagKind
  msg : String
  span : SpanM
  deriving DecidableEq, Repr

def ghostFlagMsg : String :=
  "Ghost constraints need to be enabled with the feature flag enable_ghost_constraints"

def ghostTrustedMsg : String :=
  "Ghost constraints can only be used on trusted functions"

def externConflictMsg : String :=
  "external specification provided for an item which already has a specification"

def typeInvMsg : String :=
  "Type invariants need to be enabled with the feature flag enable_type_invariants"

def exportErrMsg : String :=
  "error exporting specs to file"

def importErrMsg : String :=
  "error importing specs from file"

/-- The specification identifiers referenced by one `SpecIdRef`. -/
def refSpecIds : SpecIdRef → List SpecificationId
  | .precondition s => [s]
  | .postcondition s => [s]
  | .pledge lhs rhs => (match lhs with | some l => [l] | none => []) ++ [rhs]
  | .predicate s => [s]

/-- One iteration of the `for spec_id_ref in &refs.spec_id_refs` loop of
`determine_procedure_specs`: resolve the reference in the
specification-body table `sf` (`self.spec_functions`), attach the clause
to the graph, or override the kind for a predicate reference.  A failed
lookup is the source's `.unwrap()` panic (`none`). -/
def applySpecIdRef (sf : List (SpecificationId × LocalDefId)) (env : BuildEnv)
    (acc : SpecGraph × ProcedureSpecificationKind) (r : SpecIdRef) :
    Option (SpecGraph × ProcedureSpecificationKind) :=
  match r with
  | .precondition s =>
      (alookup s sf).map (fun d => (acc.1.add_precondition d env, acc.2))
  | .postcondition s =>
      (alookup s sf).map (fun d => (acc.1.add_postcondition d env, acc.2))
  | .pledge lhs rhs =>
      match lhs with
      | none =>
          (alookup rhs sf).map (fun dr => (acc.1.add_pledge ⟨none, none, dr⟩, acc.2))
      | some l =>
          match alookup l sf with
          | none => none
          | some dl =>
              (alookup rhs sf).map (fun dr => (acc.1.add_pledge ⟨none, some dl, dr⟩, acc.2))
  | .predicate s =>
      (alookup s sf).map (fun d => (acc.1, ProcedureSpecificationKind.predicate (some d)))

/-- The reference loop of `determine_procedure_specs`, threading the
graph under construction and the current kind. -/
def foldRefs (sf : List (SpecificationId × LocalDefId)) (env : BuildEnv)
    (acc : SpecGraph × ProcedureSpecificationKind) :
    List SpecIdRef → Option (SpecGraph × ProcedureSpecificationKind)
  | [] => some acc
  | r :: rest =>
      match applySpecIdRef sf env acc r with
      | none => none
      | some acc' => foldRefs sf env acc' rest

/-- The initial kind of `determine_procedure_specs`: `abstract_predicate`
yields `Predicate(None)`, else `pure` yields `Pure`, else `Impure`. -/
def initKind (refs : ProcedureSpecRefs) : ProcedureSpecificationKind :=
  if refs.abstract_predicate then .predicate none
  else if refs.pure then .pure
  else .impure

/-- The graph-construction part of `determine_procedure_specs` for one
scanner record: start from `SpecGraph::new(ProcedureSpecification::empty)`,
run the reference loop, then `set_trusted` and `set_kind`. -/
def buildSpecGraph (sf : List (SpecificationId × LocalDefId)) (env : BuildEnv)
    (local_id : LocalDefId) (refs : ProcedureSpecRefs) : Option SpecGraph :=
  match foldRefs sf env (SpecGraph.new (ProcedureSpecification.empty local_id), initKind refs)
      refs.spec_id_refs with
  | none => none
  | some (g, k) => some ((g.set_trusted refs.trusted).set_kind k)

/-- The ghost-constraint gating step of `determine_procedure_specs` for
one record: build the graph, then either emit a diagnostic and drop the
entry, or keep it.  The outer `Option` is a build abort (a failed
`unwrap` / `expect_inherent`); the inner `Option SpecGraph` is the entry
to insert, `none` when the contract is dropped. -/
def determineOneProc (cfg : Config) (sf : List (SpecificationId × LocalDefId)) (env : BuildEnv)
    (local_id : LocalDefId) (refs : ProcedureSpecRefs) :
    Option (Option SpecGraph × List Diagnostic) :=
  match buildSpecGraph sf env local_id refs with
  | none => none
  | some spec =>
      if !spec.specs_with_constraints.isEmpty && !cfg.enable_ghost_constraints then
        some (none, [⟨.unsupported, ghostFlagMsg, .ofDef local_id⟩])
      else if !spec.specs_with_constraints.isEmpty then
        match spec.base_spec.trusted.expect_inherent with
        | none => none
        | some t =>
            if !t then
              some (none, [⟨.unsupported, ghostTrustedMsg, .ofDef local_id⟩])
            else
              some (some spec, [])
      else
        some (some spec, [])

/-- `determine_procedure_specs`: process every scanner record, collecting
the inserted `(DefId, SpecGraph)` entries of `def_spec.proc_specs` and the
emitted diagnostics; `none` models a build abort. -/
def determine_procedure_specs (cfg : Config) (sf : List (SpecificationId × LocalDefId))
    (env : BuildEnv) :
    List (LocalDefId × ProcedureSpecRefs) → Option (List (DefId × SpecGraph) × List Diagnostic)
  | [] => some ([], [])
  | (l, refs) :: rest =>
      match determineOneProc cfg sf env l refs with
      | none => none
      | some (entry?, ds) =>
          match determine_procedure_specs cfg sf env rest with
          | none => none
          | some (m, ds') =>
              some ((match entry? with
                     | some g => (l, g) :: m
                     | none => m),
                    ds ++ ds')

/-- The specification identifiers of the last `Predicate` reference, used
to state the kind-override property. -/
def predRefs (rs : List SpecIdRef) : List SpecificationId :=
  rs.filterMap (fun r => match r with | .predicate s => some s | _ => none)

/-- An entry of `extern_resolver.extern_fn_map`: the declaration's target
(`get_target_def_id`) paired with the stand-in entity's identity. -/
structure ExternSpecDecl where
  target : DefId
  deriving DecidableEq, Repr

/-- `determine_extern_specs`: for each collected extern declaration, emit
a conflict diagnostic when the target already has a specification, then
re-key the stand-in's graph onto the target (`remove` + `insert`; the
`remove(..).unwrap()` panic is the outer `none`).  The resolver's own
shape checks (`check_errors`) concern declaration well-formedness, not
the map, and are not modelled. -/
def determine_extern_specs (m : List (DefId × SpecGraph)) :
    List (ExternSpecDecl × LocalDefId) → Option (List (DefId × SpecGraph) × List Diagnostic)
  | [] => some (m, [])
  | (decl, spec_id) :: rest =>
      let ds :=
        if (alookup decl.target m).isSome then
          [⟨.incorrect, externConflictMsg, .ofDef spec_id⟩]
        else []
      match alookup spec_id m with
      | none => none
      | some g =>
          match determine_extern_specs (ainsert decl.target g (aerase spec_id m)) rest with
          | none => none
          | some (m', ds') => some (m', ds ++ ds')

/-- `typed::TypeSpecification`. -/
structure TypeSpecification where
  source : DefId
  invariant : SpecificationItem (List DefId)
  trusted : SpecificationItem Bool
  deriving DecidableEq, Repr

/-- `determine_type_specs`: validate the type-invariants feature gate
(diagnostic only), then always insert the record with the invariant set
and trusted flag copied verbatim. -/
def determine_type_specs (cfg : Config) :
    List (LocalDefId × TypeSpecRefs) → List (DefId × TypeSpecification) × List Diagnostic
  | [] => ([], [])
  | (t, refs) :: rest =>
      let ds :=
        if !refs.invariants.isEmpty && !cfg.enable_type_invariants then
          [⟨.unsupported, typeInvMsg, .ofDef t⟩]
        else []
      let rec_rest := determine_type_specs cfg rest
      (ainsert t ⟨t, .inherent refs.invariants, .inherent refs.trusted⟩ rec_rest.1,
       ds ++ rec_rest.2)

/-- The two sections of `typed::DefSpecificationMap` that take part in
persistence (the remaining sections — loop invariants, assertions,
assumptions, ghost markers — are single-field wrappers, not persisted). -/
structure DefSpecificationMap where
  proc_specs : List (DefId × SpecGraph)
  type_specs : List (DefId × TypeSpecification)
  deriving DecidableEq, Repr

def DefSpecificationMap.emptyMap : DefSpecificationMap := ⟨[], []⟩

/-- The decoded content of one persisted artifact: the three sections in
their fixed order (procedure specs, type specs, bodies).  A body is
abstracted as a pair of the entity and an opaque blob identifier. -/
structure ImportData where
  proc_specs : List (DefId × SpecGraph)
  type_specs : List (DefId × TypeSpecification)
  bodies : List (Nat × Nat)
  deriving DecidableEq, Repr

/-- Modelled from the spec: `DefSpecificationMap::import_external` merges
the decoded procedure and type maps into the current map, a decoded key
overwriting any existing binding (last-write-wins). -/
def import_external (m : DefSpecificationMap) (data : ImportData) : DefSpecificationMap :=
  ⟨data.proc_specs.foldl (fun acc p => ainsert p.1 p.2 acc) m.proc_specs,
   data.type_specs.foldl (fun acc p => ainsert p.1 p.2 acc) m.type_specs⟩

/-- Modelled from the spec: one token of the serialized artifact.  The
encoder (`DefSpecsEncoder`, not among the provided sources) writes each
map as its length followed by its entries; the three sections carry no
separators, so the decoder must consume them in the fixed order. -/
inductive SerTok where
  | nat (n : Nat)
  | procE (k : DefId) (v : SpecGraph)
  | typeE (k : DefId) (v : TypeSpecification)
  | bodyE (k : Nat) (b : Nat)
  deriving DecidableEq, Repr

def encodeProcMap (m : List (DefId × SpecGraph)) : List SerTok :=
  SerTok.nat m.length :: m.map (fun p => SerTok.procE p.1 p.2)

def encodeTypeMap (m : List (DefId × TypeSpecification)) : List SerTok :=
  SerTok.nat m.length :: m.map (fun p => SerTok.typeE p.1 p.2)

def encodeBodies (bs : List (Nat × Nat)) : List SerTok :=
  SerTok.nat bs.length :: bs.map (fun p => SerTok.bodyE p.1 p.2)

/-- `write_into_file`: encode, in fixed order, the procedure map, the
type map, and the materialized bodies. -/
def write_into_file (def_spec : DefSpecificationMap) (bodies : List (Nat × Nat)) : List SerTok :=
  encodeProcMap def_spec.proc_specs ++ encodeTypeMap def_spec.type_specs ++ encodeBodies bodies

def decodeNat : List SerTok → Option (Nat × List SerTok)
  | .nat n :: rest => some (n, rest)
  | _ => none

def decodeProcEntries : Nat → List SerTok → Option (List (DefId × SpecGraph) × List SerTok)
  | 0, toks => some ([], toks)
  | n + 1, .procE k v :: rest =>
      match decodeProcEntries n rest with
      | some (es, toks) => some ((k, v) :: es, toks)
      | none => none
  | _ + 1, _ => none

def decodeTypeEntries : Nat → List SerTok → Option (List (DefId × TypeSpecification) × List SerTok)
  | 0, toks => some ([], toks)
  | n + 1, .typeE k v :: rest =>
      match decodeTypeEntries n rest with
      | some (es, toks) => some ((k, v) :: es, toks)
      | none => none
  | _ + 1, _ => none

def decodeBodyEntries : Nat → List SerTok → Option (List (Nat × Nat) × List SerTok)
  | 0, toks => some ([], toks)
  | n + 1, .bodyE k b :: rest =>
      match decodeBodyEntries n rest with
      | some (es, toks) => some ((k, b) :: es, toks)
      | none => none
  | _ + 1, _ => none

def decodeProcMap (toks : List SerTok) : Option (List (DefId × SpecGraph) × List SerTok) :=
  match decodeNat toks with
  | none => none
  | some (n, rest) => decodeProcEntries n rest

def decodeTypeMap (toks : List SerTok) : Option (List (DefId × TypeSpecification) × List SerTok) :=
  match decodeNat toks with
  | none => none
  | some (n, rest) => decodeTypeEntries n rest

def decodeBodies (toks : List SerTok) : Option (List (Nat × Nat) × List SerTok) :=
  match decodeNat toks with
  | none => none
  | some (n, rest) => decodeBodyEntries n rest

/-- `import_from_file`: decode the three sections in the same fixed
order the encoder wrote them, merge the maps into `def_spec` via
`import_external`, and splice the decoded bodies into the body cache
(returned here alongside the map). -/
def import_from_file (def_spec : DefSpecificationMap) (data : List SerTok) :
    Option (DefSpecificationMap × List (Nat × Nat)) :=
  match decodeProcMap data with
  | none => none
  | some (ps, r1) =>
      match decodeTypeMap r1 with
      | none => none
      | some (ts, r2) =>
          match decodeBodies r2 with
          | none => none
          | some (bs, _) => some (import_external def_spec ⟨ps, ts, bs⟩, bs)

/-- Modelled from the spec: the persistence environment of
`build_def_specs` — the enumerated dependency crates, the current crate,
and per crate either no artifact file (`none`), an artifact whose read or
decode fails (`Except.error`), or a successfully decoded artifact. -/
structure DepEnv where
  crates : List Nat
  local_crate : Nat
  artifact : Nat → Option (Except String ImportData)

/-- One iteration of the `import_specs_from_dependencies` loop: skip the
current crate, skip crates without an artifact file, report an import
failure with an internal diagnostic at the synthetic position and move
on, and merge a successful import. -/
def importStep (lc : Nat) (art : Nat → Option (Except String ImportData))
    (acc : DefSpecificationMap × List Diagnostic) (c : Nat) :
    DefSpecificationMap × List Diagnostic :=
  if c = lc then acc
  else
    match art c with
    | none => acc
    | some (.error _) => (acc.1, acc.2 ++ [⟨.internal, importErrMsg, .dummy⟩])
    | some (.ok d) => (import_external acc.1 d, acc.2)

/-- `import_specs_from_dependencies`. -/
def import_specs_from_dependencies (env : DepEnv) (m : DefSpecificationMap) :
    DefSpecificationMap × List Diagnostic :=
  env.crates.foldl (importStep env.local_crate env.artifact) (m, [])

/-- The persistence portion of `build_def_specs` (the branch taken when a
build output directory is given): report an export failure with an
internal diagnostic at the synthetic position, then import from the
dependencies; the map is returned in either case. -/
def build_def_specs_persist (env : DepEnv) (exportResult : Except String Unit)
    (m : DefSpecificationMap) : DefSpecificationMap × List Diagnostic :=
  let ds0 : List Diagnostic :=
    match exportResult with
    | .error _ => [⟨.internal, exportErrMsg, .dummy⟩]
    | .ok _ => []
  let imported := import_specs_from_dependencies env m
  (imported.1, ds0 ++ imported.2)

/-- The decoded artifacts actually merged: every dependency crate other
than the current one whose artifact exists and decodes successfully, in
enumeration order. -/
def okArtifacts (crates : List Nat) (lc : Nat)
    (art : Nat → Option (Except String ImportData)) : List ImportData :=
  crates.filterMap (fun c =>
    if c = lc then none
    else
      match art c with
      | some (.ok d) => some d
      | _ => none)

def isErrArtifact : Option (Except String ImportData) → Bool
  | some (.error _) => true
  | _ => false

/-- The dependency crates whose artifact exists but fails to read or
decode. -/
def failedCrates (crates : List Nat) (lc : Nat)
    (art : Nat → Option (Except String ImportData)) : List Nat :=
  crates.filter (fun c => !(c == lc) && isErrArtifact (art c))

/-- One entry of the body cache after materialization, tagged by which
loader put it there. -/
inductive LoadEvent where
  | specBody (d : DefId)
  | pureBody (d : DefId)
  | predBody (d : DefId)
  deriving DecidableEq, Repr

/-- `ensure_local_mirs_fetched`: load every specification-clause body,
then every body of a `Pure`-classified procedure that has a body at all,
then every predicate body, in that order.  The three groups come from
`defid_for_export` (not among the provided sources) and are taken as
inputs. -/
def ensure_local_mirs_fetched (has_body : DefId → Bool)
    (specs pure_fns predicates : List DefId) : List LoadEvent :=
  let s1 := specs.foldl (fun acc d => acc ++ [LoadEvent.specBody d]) []
  let s2 := pure_fns.foldl
    (fun acc d => if has_body d then acc ++ [LoadEvent.pureBody d] else acc) s1
  predicates.foldl (fun acc d => acc ++ [LoadEvent.predBody d]) s2

/-- The attribute reads performed by the scanner on one function, with
specification-identifier strings abstracted as already-parsed numbers
(an unparseable identifier aborts the build upstream of everything
modelled here; the mismatched assert-pledge pair, `unreachable!` in the
source, is modelled as an abort). -/
structure FnAttrs where
  spec_id : Option SpecificationId
  pre_refs : List SpecificationId
  post_refs : List SpecificationId
  pledge_refs : List SpecificationId
  assert_pledge_lhs : Option SpecificationId
  assert_pledge_rhs : Option SpecificationId
  pred_ref : Option SpecificationId
  pure : Bool
  trusted : Bool
  abstract_predicate : Bool
  has_extern_spec : Bool
  loop_body_invariant_spec : Bool
  type_invariant_spec : Bool
  trusted_type : Bool
  prusti_assertion : Bool
  prusti_assumption : Bool
  ghost_begin : Bool
  ghost_end : Bool
  deriving DecidableEq, Repr

/-- The assert-pledge pair: both present yields one `Pledge` reference,
both absent yields nothing, a mismatched pair is `unreachable!`. -/
def assertPledgeRefs : Option SpecificationId → Option SpecificationId →
    Option (List SpecIdRef)
  | some l, some r => some [SpecIdRef.pledge (some l) r]
  | none, none => some []
  | _, _ => none

/-- The reference list assembled by `get_procedure_spec_ids` in source
order: preconditions, postconditions, pledges, the assert-pledge pair,
then the predicate reference. -/
def collectedSpecIdRefs (attrs : FnAttrs) (ap : List SpecIdRef) : List SpecIdRef :=
  attrs.pre_refs.map SpecIdRef.precondition ++
  attrs.post_refs.map SpecIdRef.postcondition ++
  attrs.pledge_refs.map (fun r => SpecIdRef.pledge none r) ++
  ap ++
  (match attrs.pred_ref with
   | some s => [SpecIdRef.predicate s]
   | none => [])

/-- `get_procedure_spec_ids`: assemble the reference list and return a
record exactly when a flag is set or a reference exists. -/
def get_procedure_spec_ids (attrs : FnAttrs) : Option (Option ProcedureSpecRefs) :=
  match assertPledgeRefs attrs.assert_pledge_lhs attrs.assert_pledge_rhs with
  | none => none
  | some ap =>
      if attrs.abstract_predicate || attrs.pure || attrs.trusted ||
          !(collectedSpecIdRefs attrs ap).isEmpty then
        some (some ⟨collectedSpecIdRefs attrs ap, attrs.pure, attrs.abstract_predicate,
          attrs.trusted⟩)
      else
        some none

/-- Whether the attributes yield at least one specification reference. -/
def hasSpecRefAttr (attrs : FnAttrs) : Bool :=
  !attrs.pre_refs.isEmpty || !attrs.post_refs.isEmpty || !attrs.pledge_refs.isEmpty ||
  (attrs.assert_pledge_lhs.isSome && attrs.assert_pledge_rhs.isSome) ||
  attrs.pred_ref.isSome

/-- The mutable state of `SpecCollector` touched by `visit_fn`. -/
structure CollectorState where
  spec_functions : List (SpecificationId × LocalDefId)
  procedure_specs : List (LocalDefId × ProcedureSpecRefs)
  loop_specs : List LocalDefId
  type_specs : List (LocalDefId × TypeSpecRefs)
  prusti_assertions : List LocalDefId
  prusti_assumptions : List LocalDefId
  ghost_begin : List LocalDefId
  ghost_end : List LocalDefId
  extern_fns : List LocalDefId
  deriving DecidableEq, Repr

/-- The HIR environment consulted by `visit_fn` for type-invariant and
trusted-type markers: `implTypeOf f` resolves the enclosing impl of the
marker method `f` to the local type it implements (the composed
`get_parent_node` / `get_type_id_from_impl_node` / `as_local` chain);
`none` models the source's `.unwrap()` panics on that chain. -/
structure VisitEnv where
  implTypeOf : LocalDefId → Option LocalDefId

def recordInvariantMarker (env : VisitEnv) (local_id : LocalDefId) (s : CollectorState) :
    Option CollectorState :=
  match env.implTypeOf local_id with
  | none => none
  | some t =>
      let ts := amodify t (fun r => { r with invariants := r.invariants ++ [local_id] })
        default s.type_specs
      some { s with type_specs := ts }

def recordTrustedTypeMarker (env : VisitEnv) (local_id : LocalDefId) (s : CollectorState) :
    Option CollectorState :=
  match env.implTypeOf local_id with
  | none => none
  | some t =>
      let ts := amodify t (fun r => { r with trusted := true }) default s.type_specs
      some { s with type_specs := ts }

def loopStep (b : Bool) (local_id : LocalDefId) (s : CollectorState) : CollectorState :=
  if b then { s with loop_specs := s.loop_specs ++ [local_id] } else s

def assertStep (b : Bool) (local_id : LocalDefId) (s : CollectorState) : CollectorState :=
  if b then { s with prusti_assertions := s.prusti_assertions ++ [local_id] } else s

def assumeStep (b : Bool) (local_id : LocalDefId) (s : CollectorState) : CollectorState :=
  if b then { s with prusti_assumptions := s.prusti_assumptions ++ [local_id] } else s

def ghostBeginStep (b : Bool) (local_id : LocalDefId) (s : CollectorState) : CollectorState :=
  if b then { s with ghost_begin := s.ghost_begin ++ [local_id] } else s

def ghostEndStep (b : Bool) (local_id : LocalDefId) (s : CollectorState) : CollectorState :=
  if b then { s with ghost_end := s.ghost_end ++ [local_id] } else s

def typeMarkerStep (b : Bool) (env : VisitEnv) (local_id : LocalDefId)
    (s : CollectorState) : Option CollectorState :=
  if b then recordInvariantMarker env local_id s else some s

def trustedMarkerStep (b : Bool) (env : VisitEnv) (local_id : LocalDefId)
    (s : CollectorState) : Option CollectorState :=
  if b then recordTrustedTypeMarker env local_id s else some s

/-- The side-record population of `visit_fn` for a specification-body
item (the body of the `if let Some(raw_spec_id) = ...` branch after the
`spec_functions` registration). -/
def specItemSteps (env : VisitEnv) (local_id : LocalDefId) (attrs : FnAttrs)
    (s1 : CollectorState) : Option CollectorState :=
  (typeMarkerStep attrs.type_invariant_spec env local_id
      (loopStep attrs.loop_body_invariant_spec local_id s1)).bind
    (fun s3 =>
      (trustedMarkerStep attrs.trusted_type env local_id s3).map
        (fun s4 =>
          ghostEndStep attrs.ghost_end local_id
            (ghostBeginStep attrs.ghost_begin local_id
              (assumeStep attrs.prusti_assumption local_id
                (assertStep attrs.prusti_assertion local_id s4)))))

/-- `visit_fn`: a function carrying a `spec_id` attribute is registered
in the specification-body table and may populate the loop, type-
invariant, trusted-type, assertion, assumption, and ghost-marker side
records; otherwise extern-spec stand-ins are handed to the resolver and
annotated procedures are recorded.  (`walk_fn` recursion and the
`ExternSpecKind` parse of the stand-in are outside the modelled state.) -/
def visit_fn (env : VisitEnv) (s : CollectorState) (local_id : LocalDefId)
    (attrs : FnAttrs) : Option CollectorState :=
  match attrs.spec_id with
  | some sid =>
      specItemSteps env local_id attrs
        { s with spec_functions := ainsert sid local_id s.spec_functions }
  | none =>
      let s1 :=
        if attrs.has_extern_spec then
          { s with extern_fns := s.extern_fns ++ [local_id] }
        else s
      match get_procedure_spec_ids attrs with
      | none => none
      | some none => some s1
      | some (some refs) =>
          some { s1 with procedure_specs := ainsert local_id refs s1.procedure_specs }

/-! Concrete fixtures used by the defect exhibit and the witnesses. -/

/-- A local specification graph recorded for target entity `5`. -/
def gLocal : SpecGraph := SpecGraph.new (ProcedureSpecification.empty 0)

/-- The specification graph of the extern stand-in entity `9`. -/
def gExt : SpecGraph := SpecGraph.new (ProcedureSpecification.empty 1)

def sfW : List (SpecificationId × LocalDefId) := [(7, 42)]

def envNoConstraint : BuildEnv := ⟨fun _ => none⟩

def envAllConstrained : BuildEnv := ⟨fun _ => some 0⟩

def refsPredW : ProcedureSpecRefs := ⟨[SpecIdRef.predicate 7], true, true, true⟩

def gPredW : SpecGraph :=
  ⟨⟨3, [], [], [], .inherent true, .inherent (.predicate (some 42))⟩, []⟩

def refsConstrW : ProcedureSpecRefs := ⟨[SpecIdRef.precondition 7], false, false, true⟩

def gConstrW : SpecGraph :=
  ⟨⟨3, [], [], [], .inherent true, .inherent .impure⟩,
   [(0, ⟨3, [42], [], [], .inherent true, .inherent .impure⟩)]⟩

def recordsConstrW : List (LocalDefId × ProcedureSpecRefs) := [(3, refsConstrW)]

def tsW : TypeSpecification := ⟨8, .inherent [2], .inherent true⟩

def mapW : DefSpecificationMap := ⟨[(5, gLocal)], [(8, tsW)]⟩

def recordsTypeW : List (LocalDefId × TypeSpecRefs) := [(8, ⟨[2], true⟩)]

def emptyState : CollectorState := ⟨[], [], [], [], [], [], [], [], []⟩

def visitEnvW : VisitEnv := ⟨fun _ => some 11⟩

/-- Attributes of a plain function with no Prusti annotations. -/
def attrsPlain : FnAttrs :=
  ⟨none, [], [], [], none, none, none, false, false, false, false, false,
   false, false, false, false, false, false⟩

/-- Attributes of a specification-body item (a `spec_id` attribute) that
also carries `pure`, `trusted` and a precondition reference. -/
def attrsSpecItem : FnAttrs :=
  ⟨some 7, [13], [], [], none, none, none, true, true, false, false, false,
   false, false, false, false, false, false⟩

/-- Attributes of an extern-spec stand-in function. -/
def attrsExternW : FnAttrs :=
  ⟨none, [], [], [], none, none, none, false, false, false, true, false,
   false, false, false, false, false, false⟩

/-- The collector state after visiting the stand-in of `attrsExternW`
from the empty state at entity `4`. -/
def stateExternW : CollectorState := ⟨[], [], [], [], [], [], [], [], [4]⟩

/-- The collector state after visiting the specification-body item of
`attrsSpecItem` from the empty state at entity `4`. -/
def stateSpecW : CollectorState := ⟨[(7, 4)], [], [], [], [], [], [], [], []⟩

/-! Helper lemmas about the association-list model of `HashMap`. -/

theorem alookup_ainsert_self {α : Type} (k : Nat) (v : α) :
    ∀ l : List (Nat × α), alookup k (ainsert k v l) = some v
  | [] => by simp [ainsert, alookup]
  | (k', v') :: rest => by
      by_cases h : k' = k
      · simp [ainsert, h, alookup]
      · simp [ainsert, h, alookup, alookup_ainsert_self k v rest]

theorem alookup_ainsert_ne {α : Type} (k k' : Nat) (v : α) (h : k' ≠ k) :
    ∀ l : List (Nat × α), alookup k (ainsert k' v l) = alookup k l
  | [] => by simp [ainsert, alookup, h]
  | (k'', v'') :: rest => by
      by_cases h2 : k'' = k'
      · subst h2
        simp [ainsert, alookup, h]
      · by_cases h3 : k'' = k
        · simp [ainsert, alookup, h2, h3, h.symm]
        · simp [ainsert, alookup, h2, h3, alookup_ainsert_ne k k' v h rest]

theorem mem_keys_of_alookup_isSome {α : Type} (k : Nat) :
    ∀ l : List (Nat × α), (alookup k l).isSome → k ∈ l.map Prod.fst
  | [] => by simp [alookup]
  | (k', v') :: rest => by
      by_cases h : k' = k
      · subst h
        simp
      · intro hs
        simp [alookup, h] at hs
        simpa [h] using Or.inr (mem_keys_of_alookup_isSome k rest hs)

theorem alookup_eq_none_of_not_mem {α : Type} (k : Nat) (l : List (Nat × α))
    (h : k ∉ l.map Prod.fst) : alookup k l = none := by
  cases hs : alookup k l with
  | none => rfl
  | some v =>
      exact absurd (mem_keys_of_alookup_isSome k l (by simp [hs])) h

theorem aerase_sublist {α : Type} (k : Nat) :
    ∀ l : List (Nat × α), List.Sublist (aerase k l) l
  | [] => by simp [aerase]
  | (k', v') :: rest => by
      by_cases h : k' = k
      · simp [aerase, h]
      · simpa [aerase, h] using (aerase_sublist k rest).cons₂ (k', v')

theorem nodup_keys_aerase {α : Type} (k : Nat) (l : List (Nat × α))
    (h : (l.map Prod.fst).Nodup) : ((aerase k l).map Prod.fst).Nodup :=
  h.sublist ((aerase_sublist k l).map Prod.fst)

theorem filter_key_eq_nil {α : Type} (k : Nat) :
    ∀ l : List (Nat × α), k ∉ l.map Prod.fst → l.filter (fun p => p.1 == k) = []
  | [] => by intro _; rfl
  | (k', v') :: rest => by
      intro h
      have h1 : ¬(k' = k) := fun hc => h (by simp [hc])
      have h2 : k ∉ rest.map Prod.fst := fun hc => h (by simp [hc])
      simp [List.filter_cons, h1, filter_key_eq_nil k rest h2]

theorem count_ainsert_one {α : Type} (k : Nat) (v : α) :
    ∀ l : List (Nat × α), (l.map Prod.fst).Nodup →
      ((ainsert k v l).filter (fun p => p.1 == k)).length = 1
  | [], _ => by simp [ainsert]
  | (k', v') :: rest, h => by
      rw [List.map_cons, List.nodup_cons] at h
      by_cases hk : k' = k
      · subst hk
        simp [ainsert, List.filter_cons, filter_key_eq_nil k' rest h.1]
      · simp [ainsert, hk, List.filter_cons, count_ainsert_one k v rest h.2]

theorem ainsert_eq_append_of_not_mem {α : Type} (k : Nat) (v : α) :
    ∀ l : List (Nat × α), k ∉ l.map Prod.fst → ainsert k v l = l ++ [(k, v)]
  | [] => by intro _; rfl
  | (k', v') :: rest => by
      intro h
      have h1 : ¬(k' = k) := fun hc => h (by simp [hc])
      have h2 : k ∉ rest.map Prod.fst := fun hc => h (by simp [hc])
      simp [ainsert, h1, ainsert_eq_append_of_not_mem k v rest h2]

theorem foldl_ainsert_fresh {α : Type} :
    ∀ (l acc : List (Nat × α)), (l.map Prod.fst).Nodup →
      (∀ x ∈ l.map Prod.fst, x ∉ acc.map Prod.fst) →
      l.foldl (fun a p => ainsert p.1 p.2 a) acc = acc ++ l
  | [], acc, _, _ => by simp
  | (k, v) :: rest, acc, h, hf => by
      rw [List.map_cons, List.nodup_cons] at h
      have h1 : ainsert k v acc = acc ++ [(k, v)] :=
        ainsert_eq_append_of_not_mem k v acc
          (hf k (by rw [List.map_cons]; exact List.mem_cons_self k _))
      have hf' : ∀ x ∈ rest.map Prod.fst, x ∉ (acc ++ [(k, v)]).map Prod.fst := by
        intro x hx hmem
        rw [List.map_append] at hmem
        rcases List.mem_append.mp hmem with hmem | hmem
        · exact hf x (by rw [List.map_cons]; exact List.mem_cons_of_mem k hx) hmem
        · simp at hmem
          exact h.1 (by rwa [hmem] at hx)
      have h2 := foldl_ainsert_fresh rest (acc ++ [(k, v)]) h.2 hf'
      calc ((k, v) :: rest).foldl (fun a p => ainsert p.1 p.2 a) acc
          = rest.foldl (fun a p => ainsert p.1 p.2 a) (ainsert k v acc) := rfl
        _ = rest.foldl (fun a p => ainsert p.1 p.2 a) (acc ++ [(k, v)]) := by rw [h1]
        _ = (acc ++ [(k, v)]) ++ rest := h2
        _ = acc ++ (k, v) :: rest := by simp

theorem foldl_append_map {α β : Type} (f : α → β) :
    ∀ (l : List α) (acc : List β),
      l.foldl (fun a d => a ++ [f d]) acc = acc ++ l.map f
  | [], acc => by simp
  | d :: rest, acc => by
      simp [foldl_append_map f rest (acc ++ [f d])]

theorem foldl_filter_append_map {α β : Type} (f : α → β) (p : α → Bool) :
    ∀ (l : List α) (acc : List β),
      l.foldl (fun a d => if p d then a ++ [f d] else a) acc = acc ++ (l.filter p).map f
  | [], acc => by simp
  | d :: rest, acc => by
      by_cases h : p d
      · simp [h, List.filter, foldl_filter_append_map f p rest (acc ++ [f d])]
      · simp [h, List.filter, foldl_filter_append_map f p rest acc]

/-! Lemmas about the reference-resolution loop of
`determine_procedure_specs`. -/

theorem predRefs_cons_pre (s : SpecificationId) (rest : List SpecIdRef) :
    predRefs (.precondition s :: rest) = predRefs rest := rfl

theorem predRefs_cons_post (s : SpecificationId) (rest : List SpecIdRef) :
    predRefs (.postcondition s :: rest) = predRefs rest := rfl

theorem predRefs_cons_pledge (lhs : Option SpecificationId) (rhs : SpecificationId)
    (rest : List SpecIdRef) : predRefs (.pledge lhs rhs :: rest) = predRefs rest := rfl

theorem predRefs_cons_pred (s : SpecificationId) (rest : List SpecIdRef) :
    predRefs (.predicate s :: rest) = s :: predRefs rest := rfl

theorem applySpecIdRef_kind_pred (sf : List (SpecificationId × LocalDefId)) (env : BuildEnv)
    (g : SpecGraph) (k : ProcedureSpecificationKind) (s : SpecificationId)
    (acc' : SpecGraph × ProcedureSpecificationKind)
    (h : applySpecIdRef sf env (g, k) (.predicate s) = some acc') :
    ∃ d, alookup s sf = some d ∧ acc'.2 = .predicate (some d) := by
  cases hl : alookup s sf with
  | none => simp [applySpecIdRef, hl] at h
  | some d =>
      simp [applySpecIdRef, hl] at h
      exact ⟨d, rfl, by rw [← h]⟩

theorem applySpecIdRef_kind_other (sf : List (SpecificationId × LocalDefId)) (env : BuildEnv)
    (g : SpecGraph) (k : ProcedureSpecificationKind) (r : SpecIdRef)
    (acc' : SpecGraph × ProcedureSpecificationKind)
    (hr : ∀ s, r ≠ .predicate s)
    (h : applySpecIdRef sf env (g, k) r = some acc') : acc'.2 = k := by
  cases r with
  | precondition s =>
      cases hl : alookup s sf with
      | none => simp [applySpecIdRef, hl] at h
      | some d => simp [applySpecIdRef, hl] at h; rw [← h]
  | postcondition s =>
      cases hl : alookup s sf with
      | none => simp [applySpecIdRef, hl] at h
      | some d => simp [applySpecIdRef, hl] at h; rw [← h]
  | pledge lhs rhs =>
      cases lhs with
      | none =>
          cases hl : alookup rhs sf with
          | none => simp [applySpecIdRef, hl] at h
          | some d => simp [applySpecIdRef, hl] at h; rw [← h]
      | some l =>
          cases hl : alookup l sf with
          | none => simp [applySpecIdRef, hl] at h
          | some dl =>
              cases hr2 : alookup rhs sf with
              | none => simp [applySpecIdRef, hl, hr2] at h
              | some dr => simp [applySpecIdRef, hl, hr2] at h; rw [← h]
  | predicate s => exact absurd rfl (hr s)

theorem foldRefs_kind (sf : List (SpecificationId × LocalDefId)) (env : BuildEnv) :
    ∀ (rs : List SpecIdRef) (g : SpecGraph) (k : ProcedureSpecificationKind)
      (out : SpecGraph × ProcedureSpecificationKind),
      foldRefs sf env (g, k) rs = some out →
      (predRefs rs = [] → out.2 = k) ∧
      (∀ s, (predRefs rs).getLast? = some s →
        ∃ d, alookup s sf = some d ∧ out.2 = .predicate (some d))
  | [], g, k, out => by
      intro h
      simp [foldRefs] at h
      subst h
      exact ⟨fun _ => rfl, fun s hs => by simp [predRefs] at hs⟩
  | r :: rest, g, k, out => by
      intro h
      rw [foldRefs] at h
      cases happ : applySpecIdRef sf env (g, k) r with
      | none => rw [happ] at h; exact absurd h (by simp)
      | some acc' =>
          rw [happ] at h
          obtain ⟨g', k'⟩ := acc'
          have ih := foldRefs_kind sf env rest g' k' out h
          cases r with
          | predicate s =>
              obtain ⟨d, hd, hk'⟩ := applySpecIdRef_kind_pred sf env g k s (g', k') happ
              refine ⟨fun hnil => by rw [predRefs_cons_pred] at hnil; exact absurd hnil (by simp),
                      fun s' hs' => ?_⟩
              rw [predRefs_cons_pred] at hs'
              by_cases hrest : predRefs rest = []
              · rw [hrest] at hs'
                simp at hs'
                subst hs'
                exact ⟨d, hd, (ih.1 hrest).trans hk'⟩
              · obtain ⟨a, l, hl⟩ := List.exists_cons_of_ne_nil hrest
                rw [hl, List.getLast?_cons_cons] at hs'
                exact ih.2 s' (by rw [hl]; exact hs')
          | precondition s =>
              have hk' : k' = k :=
                applySpecIdRef_kind_other sf env g k _ (g', k') (by intro _ hc; cases hc) happ
              subst hk'
              exact ⟨fun hnil => ih.1 (by rwa [predRefs_cons_pre] at hnil),
                     fun s' hs' => ih.2 s' (by rwa [predRefs_cons_pre] at hs')⟩
          | postcondition s =>
              have hk' : k' = k :=
                applySpecIdRef_kind_other sf env g k _ (g', k') (by intro _ hc; cases hc) happ
              subst hk'
              exact ⟨fun hnil => ih.1 (by rwa [predRefs_cons_post] at hnil),
                     fun s' hs' => ih.2 s' (by rwa [predRefs_cons_post] at hs')⟩
          | pledge lhs rhs =>
              have hk' : k' = k :=
                applySpecIdRef_kind_other sf env g k _ (g', k') (by intro _ hc; cases hc) happ
              subst hk'
              exact ⟨fun hnil => ih.1 (by rwa [predRefs_cons_pledge] at hnil),
                     fun s' hs' => ih.2 s' (by rwa [predRefs_cons_pledge] at hs')⟩

theorem buildSpecGraph_eq (sf : List (SpecificationId × LocalDefId)) (env : BuildEnv)
    (local_id : LocalDefId) (refs : ProcedureSpecRefs) (g : SpecGraph)
    (h : buildSpecGraph sf env local_id refs = some g) :
    ∃ g0 k, foldRefs sf env (SpecGraph.new (ProcedureSpecification.empty local_id), initKind refs)
        refs.spec_id_refs = some (g0, k) ∧
      g = (g0.set_trusted refs.trusted).set_kind k := by
  unfold buildSpecGraph at h
  cases hf : foldRefs sf env (SpecGraph.new (ProcedureSpecification.empty local_id), initKind refs)
      refs.spec_id_refs with
  | none => rw [hf] at h; cases h
  | some acc =>
      obtain ⟨g0, k⟩ := acc
      rw [hf] at h
      simp at h
      exact ⟨g0, k, rfl, h.symm⟩

theorem set_kind_base_kind (g : SpecGraph) (t : Bool) (k : ProcedureSpecificationKind) :
    ((g.set_trusted t).set_kind k).base_spec.kind = .inherent k := rfl

theorem set_kind_base_trusted (g : SpecGraph) (t : Bool) (k : ProcedureSpecificationKind) :
    ((g.set_trusted t).set_kind k).base_spec.trusted = .inherent t := rfl

theorem buildSpecGraph_trusted (sf : List (SpecificationId × LocalDefId)) (env : BuildEnv)
    (local_id : LocalDefId) (refs : ProcedureSpecRefs) (g : SpecGraph)
    (h : buildSpecGraph sf env local_id refs = some g) :
    g.base_spec.trusted = .inherent refs.trusted := by
  obtain ⟨g0, k, _, hg⟩ := buildSpecGraph_eq sf env local_id refs g h
  rw [hg]
  exact set_kind_base_trusted g0 refs.trusted k

/-! Claim theorems. -/

/-- C2: The derived kind of a procedure scanner record obeys the
precedence of `determine_procedure_specs`: with no predicate-body
reference, the kind is `initKind refs` (`abstract_predicate` yields
`Predicate(None)`, else `pure` yields `Pure`, else `Impure`); and a
`Predicate(spec_id)` reference overrides the kind to
`Predicate(Some(id))` — the resolution of the last predicate reference —
regardless of the `abstract_predicate` and `pure` flags.  The witness
instantiates this with `abstract_predicate = true`, `pure = true` and an
explicit predicate-body reference, yielding `Predicate(Some 42))`. -/
theorem procedure_kind_precedence (sf : List (SpecificationId × LocalDefId)) (env : BuildEnv)
    (local_id : LocalDefId) (refs : ProcedureSpecRefs) (g : SpecGraph)
    (h : buildSpecGraph sf env local_id refs = some g) :
    (predRefs refs.spec_id_refs = [] →
      g.base_spec.kind = .inherent (initKind refs)) ∧
    (∀ s, (predRefs refs.spec_id_refs).getLast? = some s →
      ∃ d, alookup s sf = some d ∧
        g.base_spec.kind = .inherent (.predicate (some d))) := by
  obtain ⟨g0, k, hf, hg⟩ := buildSpecGraph_eq sf env local_id refs g h
  have hk := foldRefs_kind sf env refs.spec_id_refs _ _ (g0, k) hf
  constructor
  · intro hnil
    rw [hg, set_kind_base_kind]
    exact congrArg SpecificationItem.inherent (hk.1 hnil)
  · intro s hs
    obtain ⟨d, hd, hkd⟩ := hk.2 s hs
    refine ⟨d, hd, ?_⟩
    rw [hg, set_kind_base_kind]
    exact congrArg SpecificationItem.inherent hkd

/-- C2 witness: a record with `abstract_predicate = true`, `pure = true`
and predicate-body reference `7` (resolving to entity `42`) gets kind
`Predicate(Some 42)`. -/
theorem procedure_kind_precedence_witness :
    gPredW.base_spec.kind = .inherent (.predicate (some 42)) := by
  obtain ⟨d, hd, hkd⟩ :=
    (procedure_kind_precedence sfW envNoConstraint 3 refsPredW gPredW rfl).2 7 rfl
  have h42 : alookup 7 sfW = some 42 := rfl
  rw [h42] at hd
  injection hd with hd
  subst hd
  exact hkd

/-- C1 (counterexample): with a local specification `gLocal` recorded for
target `5` and an extern stand-in `9` carrying `gExt`, resolving the
extern declaration emits the conflict diagnostic but the resulting map
binds the target to the stand-in's specification `gExt`, not to the
local `gLocal` — the extern specification overwrites the local one, so
"the local one wins" is false. -/
theorem extern_spec_conflict_cex :
    determine_extern_specs [(5, gLocal), (9, gExt)] [(⟨5⟩, 9)] =
      some ([(5, gExt)], [⟨.incorrect, externConflictMsg, .ofDef 9⟩]) ∧
    gExt ≠ gLocal := by
  exact ⟨rfl, by decide⟩

/-- C1 (amended): if an extern specification is declared whose target
already has a specification in the procedure map, `determine_extern_specs`
emits a reported conflict diagnostic and the resulting map contains
exactly one specification for that target — namely the extern stand-in's
specification, which overwrites the local one (the overwrite is
accompanied by the diagnostic; there is no duplication). -/
theorem extern_spec_conflict_overwrites (m : List (DefId × SpecGraph)) (decl : ExternSpecDecl)
    (spec_id : LocalDefId) (gStandIn : SpecGraph)
    (out : List (DefId × SpecGraph) × List Diagnostic)
    (hnd : (m.map Prod.fst).Nodup)
    (htgt : (alookup decl.target m).isSome = true)
    (hsp : alookup spec_id m = some gStandIn)
    (hout : determine_extern_specs m [(decl, spec_id)] = some out) :
    (⟨.incorrect, externConflictMsg, .ofDef spec_id⟩ : Diagnostic) ∈ out.2 ∧
    alookup decl.target out.1 = some gStandIn ∧
    (out.1.filter (fun p => p.1 == decl.target)).length = 1 := by
  rw [determine_extern_specs, hsp] at hout
  simp only [htgt, if_true] at hout
  rw [determine_extern_specs] at hout
  simp at hout
  rw [← hout]
  refine ⟨by simp, alookup_ainsert_self _ _ _, ?_⟩
  exact count_ainsert_one decl.target gStandIn (aerase spec_id m)
    (nodup_keys_aerase spec_id m hnd)

/-- C1 witness for the amended theorem, at the counterexample's input. -/
theorem extern_spec_conflict_overwrites_witness :
    (⟨.incorrect, externConflictMsg, .ofDef 9⟩ : Diagnostic) ∈
      [(⟨.incorrect, externConflictMsg, .ofDef 9⟩ : Diagnostic)] ∧
    alookup 5 [(5, gExt)] = some gExt ∧
    (([(5, gExt)] : List (DefId × SpecGraph)).filter (fun p => p.1 == 5)).length = 1 :=
  extern_spec_conflict_overwrites [(5, gLocal), (9, gExt)] ⟨5⟩ 9 gExt
    ([(5, gExt)], [⟨.incorrect, externConflictMsg, .ofDef 9⟩])
    (by decide) rfl rfl rfl

theorem determine_proc_keys (cfg : Config) (sf : List (SpecificationId × LocalDefId))
    (env : BuildEnv) :
    ∀ (records : List (LocalDefId × ProcedureSpecRefs))
      (out : List (DefId × SpecGraph) × List Diagnostic),
      determine_procedure_specs cfg sf env records = some out →
      ∀ d, (alookup d out.1).isSome = true → d ∈ records.map Prod.fst
  | [], out => by
      intro h d hd
      rw [determine_procedure_specs] at h
      injection h with h
      rw [← h] at hd
      simp [alookup] at hd
  | (l, refs) :: rest, out => by
      intro h d hd
      rw [determine_procedure_specs] at h
      cases h1 : determineOneProc cfg sf env l refs with
      | none => rw [h1] at h; cases h
      | some p =>
          obtain ⟨entry?, ds⟩ := p
          rw [h1] at h
          cases h2 : determine_procedure_specs cfg sf env rest with
          | none => rw [h2] at h; cases h
          | some q =>
              obtain ⟨m, ds'⟩ := q
              rw [h2] at h
              injection h with h
              cases entry? with
              | none =>
                  rw [← h] at hd
                  have := determine_proc_keys cfg sf env rest (m, ds') h2 d hd
                  simp
                  right
                  simpa using this
              | some g =>
                  rw [← h] at hd
                  by_cases hld : l = d
                  · simp [hld]
                  · rw [show alookup d ((l, g) :: m) = alookup d m by simp [alookup, hld]] at hd
                    have := determine_proc_keys cfg sf env rest (m, ds') h2 d hd
                    simp
                    right
                    simpa using this

theorem determine_proc_lookup (cfg : Config) (sf : List (SpecificationId × LocalDefId))
    (env : BuildEnv) :
    ∀ (records : List (LocalDefId × ProcedureSpecRefs))
      (out : List (DefId × SpecGraph) × List Diagnostic)
      (t : LocalDefId) (refs : ProcedureSpecRefs),
      determine_procedure_specs cfg sf env records = some out →
      (records.map Prod.fst).Nodup →
      (t, refs) ∈ records →
      ∃ e ds, determineOneProc cfg sf env t refs = some (e, ds) ∧
        alookup t out.1 = e ∧ ∀ x ∈ ds, x ∈ out.2
  | [], out, t, refs => by
      intro _ _ hmem
      cases hmem
  | (l, refs') :: rest, out, t, refs => by
      intro h hnd hmem
      rw [determine_procedure_specs] at h
      cases h1 : determineOneProc cfg sf env l refs' with
      | none => rw [h1] at h; cases h
      | some p =>
          obtain ⟨entry?, ds⟩ := p
          rw [h1] at h
          cases h2 : determine_procedure_specs cfg sf env rest with
          | none => rw [h2] at h; cases h
          | some q =>
              obtain ⟨m, ds'⟩ := q
              rw [h2] at h
              injection h with h
              rw [List.map_cons, List.nodup_cons] at hnd
              rcases List.mem_cons.mp hmem with hhd | htl
              · injection hhd with hl hr
                subst hl
                subst hr
                refine ⟨entry?, ds, h1, ?_, ?_⟩
                · cases entry? with
                  | none =>
                      rw [← h]
                      cases halt : alookup t m with
                      | none => rfl
                      | some v =>
                          have hk := determine_proc_keys cfg sf env rest (m, ds') h2 t
                            (by simp [halt])
                          exact absurd hk hnd.1
                  | some g =>
                      rw [← h]
                      simp [alookup]
                · intro x hx
                  rw [← h]
                  exact List.mem_append.mpr (Or.inl hx)
              · have htmem : t ∈ rest.map Prod.fst :=
                  List.mem_map.mpr ⟨(t, refs), htl, rfl⟩
                have hlt : l ≠ t := fun hc => hnd.1 (hc ▸ htmem)
                obtain ⟨e, ds2, he, hlook, hds⟩ :=
                  determine_proc_lookup cfg sf env rest (m, ds') t refs h2 hnd.2 htl
                refine ⟨e, ds2, he, ?_, ?_⟩
                · rw [← h]
                  cases entry? with
                  | none => exact hlook
                  | some g => rw [show alookup t ((l, g) :: m) = alookup t m by
                      simp [alookup, hlt]]; exact hlook
                · intro x hx
                  rw [← h]
                  exact List.mem_append.mpr (Or.inr (hds x hx))

/-- C3: for a procedure whose specification graph has a non-empty
constrained-variant set, `determine_procedure_specs` (i) with the
ghost-constraints feature disabled emits the feature-flag diagnostic and
inserts no entry for the procedure, (ii) with the feature enabled but the
base specification not trusted emits the trusted-functions diagnostic and
inserts no entry, and (iii) with the feature enabled and the base
specification trusted inserts the entry, whose constrained-variant set is
non-empty. -/
theorem ghost_constraint_gating (cfg : Config) (sf : List (SpecificationId × LocalDefId))
    (env : BuildEnv) (records : List (LocalDefId × ProcedureSpecRefs))
    (out : List (DefId × SpecGraph) × List Diagnostic)
    (t : LocalDefId) (refs : ProcedureSpecRefs) (g : SpecGraph)
    (hdet : determine_procedure_specs cfg sf env records = some out)
    (hnd : (records.map Prod.fst).Nodup)
    (hmem : (t, refs) ∈ records)
    (hg : buildSpecGraph sf env t refs = some g)
    (hconstr : g.specs_with_constraints ≠ []) :
    (cfg.enable_ghost_constraints = false →
        alookup t out.1 = none ∧
        (⟨.unsupported, ghostFlagMsg, .ofDef t⟩ : Diagnostic) ∈ out.2) ∧
    (cfg.enable_ghost_constraints = true → refs.trusted = false →
        alookup t out.1 = none ∧
        (⟨.unsupported, ghostTrustedMsg, .ofDef t⟩ : Diagnostic) ∈ out.2) ∧
    (cfg.enable_ghost_constraints = true → refs.trusted = true →
        alookup t out.1 = some g ∧ g.specs_with_constraints ≠ []) := by
  obtain ⟨e, ds, h1, h2, h3⟩ :=
    determine_proc_lookup cfg sf env records out t refs hdet hnd hmem
  have hempty : g.specs_with_constraints.isEmpty = false := by
    simp [List.isEmpty_iff, hconstr]
  have htrust : g.base_spec.trusted.expect_inherent = some refs.trusted := by
    rw [buildSpecGraph_trusted sf env t refs g hg]
    rfl
  rw [determineOneProc, hg] at h1
  refine ⟨?_, ?_, ?_⟩
  · intro hcfg
    rw [hcfg] at h1
    simp [hempty] at h1
    obtain ⟨he, hds⟩ := h1
    rw [← he] at h2
    refine ⟨h2, h3 _ ?_⟩
    rw [← hds]
    simp
  · intro hcfg htr
    rw [hcfg] at h1
    simp [hempty, htrust, htr] at h1
    obtain ⟨he, hds⟩ := h1
    rw [← he] at h2
    refine ⟨h2, h3 _ ?_⟩
    rw [← hds]
    simp
  · intro hcfg htr
    rw [hcfg] at h1
    simp [hempty, htrust, htr] at h1
    obtain ⟨he, _⟩ := h1
    rw [← he] at h2
    exact ⟨h2, hconstr⟩

/-- C3 witness: with the feature enabled and a trusted base
specification, the procedure with a constrained precondition keeps its
entry, and the entry's constrained-variant set is non-empty. -/
theorem ghost_constraint_gating_witness :
    alookup 3 [(3, gConstrW)] = some gConstrW ∧
    gConstrW.specs_with_constraints ≠ [] :=
  (ghost_constraint_gating ⟨true, false⟩ sfW envAllConstrained recordsConstrW
    ([(3, gConstrW)], []) 3 refsConstrW gConstrW rfl (by decide) (by decide) rfl
    (by decide)).2.2 rfl rfl

theorem applySpecIdRef_resolves (sf : List (SpecificationId × LocalDefId)) (env : BuildEnv)
    (acc acc' : SpecGraph × ProcedureSpecificationKind) (r : SpecIdRef)
    (h : applySpecIdRef sf env acc r = some acc') :
    ∀ s ∈ refSpecIds r, (alookup s sf).isSome = true := by
  intro s hs
  cases r with
  | precondition s' =>
      simp [refSpecIds] at hs
      subst hs
      cases hl : alookup s sf with
      | none => rw [applySpecIdRef, hl] at h; cases h
      | some d => simp [hl]
  | postcondition s' =>
      simp [refSpecIds] at hs
      subst hs
      cases hl : alookup s sf with
      | none => rw [applySpecIdRef, hl] at h; cases h
      | some d => simp [hl]
  | pledge lhs rhs =>
      cases lhs with
      | none =>
          simp [refSpecIds] at hs
          subst hs
          cases hl : alookup s sf with
          | none => rw [applySpecIdRef, hl] at h; cases h
          | some d => simp [hl]
      | some l =>
          simp [refSpecIds] at hs
          rcases hs with hs | hs
          · subst hs
            cases hl : alookup s sf with
            | none => rw [applySpecIdRef, hl] at h; cases h
            | some d => simp [hl]
          · subst hs
            cases hl : alookup s sf with
            | none =>
                rw [applySpecIdRef] at h
                cases hl2 : alookup l sf with
                | none => rw [hl2] at h; cases h
                | some dl => rw [hl2, hl] at h; cases h
            | some d => simp [hl]
  | predicate s' =>
      simp [refSpecIds] at hs
      subst hs
      cases hl : alookup s sf with
      | none => rw [applySpecIdRef, hl] at h; cases h
      | some d => simp [hl]

theorem foldRefs_resolves (sf : List (SpecificationId × LocalDefId)) (env : BuildEnv) :
    ∀ (rs : List SpecIdRef) (acc : SpecGraph × ProcedureSpecificationKind)
      (out : SpecGraph × ProcedureSpecificationKind),
      foldRefs sf env acc rs = some out →
      ∀ r ∈ rs, ∀ s ∈ refSpecIds r, (alookup s sf).isSome = true
  | [], acc, out => by
      intro _ r hr
      cases hr
  | r0 :: rest, acc, out => by
      intro h r hr
      rw [foldRefs] at h
      cases happ : applySpecIdRef sf env acc r0 with
      | none => rw [happ] at h; cases h
      | some acc' =>
          rw [happ] at h
          rcases List.mem_cons.mp hr with hhd | htl
          · subst hhd
            exact applySpecIdRef_resolves sf env acc acc' r happ
          · exact foldRefs_resolves sf env rest acc' out h r htl

theorem determineOneProc_builds (cfg : Config) (sf : List (SpecificationId × LocalDefId))
    (env : BuildEnv) (l : LocalDefId) (refs : ProcedureSpecRefs)
    (p : Option SpecGraph × List Diagnostic)
    (h : determineOneProc cfg sf env l refs = some p) :
    ∃ g, buildSpecGraph sf env l refs = some g := by
  cases hb : buildSpecGraph sf env l refs with
  | none => rw [determineOneProc, hb] at h; cases h
  | some g => exact ⟨g, rfl⟩

/-- C5: if `determine_procedure_specs` completes without aborting, then
every `SpecIdRef` of every scanner record had its referenced
`SpecificationId`s found in the specification-body table
(`spec_functions`); by totality, an unresolved reference therefore
forces the `none` (build-abort) outcome — it is never silently
ignored. -/
theorem spec_ref_resolution (cfg : Config) (sf : List (SpecificationId × LocalDefId))
    (env : BuildEnv) :
    ∀ (records : List (LocalDefId × ProcedureSpecRefs))
      (out : List (DefId × SpecGraph) × List Diagnostic),
      determine_procedure_specs cfg sf env records = some out →
      ∀ (l : LocalDefId) (refs : ProcedureSpecRefs), (l, refs) ∈ records →
        ∀ r ∈ refs.spec_id_refs, ∀ s ∈ refSpecIds r, (alookup s sf).isSome = true
  | [], out => by
      intro _ l refs hmem
      cases hmem
  | (l0, refs0) :: rest, out => by
      intro h l refs hmem r hr s hs
      rw [determine_procedure_specs] at h
      cases h1 : determineOneProc cfg sf env l0 refs0 with
      | none => rw [h1] at h; cases h
      | some p =>
          rw [h1] at h
          cases h2 : determine_procedure_specs cfg sf env rest with
          | none => rw [h2] at h; cases h
          | some q =>
              rcases List.mem_cons.mp hmem with hhd | htl
              · injection hhd with hl hre
                subst hl
                subst hre
                obtain ⟨g, hg⟩ := determineOneProc_builds cfg sf env l refs p h1
                obtain ⟨g0, k, hf, _⟩ := buildSpecGraph_eq sf env l refs g hg
                exact foldRefs_resolves sf env refs.spec_id_refs _ (g0, k) hf r hr s hs
              · exact spec_ref_resolution cfg sf env rest q h2 l refs htl r hr s hs

/-- C5 witness: the precondition reference `7` of the sole record of
`recordsConstrW` resolves in the table `sfW`. -/
theorem spec_ref_resolution_witness : (alookup 7 sfW).isSome = true :=
  spec_ref_resolution ⟨true, false⟩ sfW envAllConstrained recordsConstrW
    ([(3, gConstrW)], []) rfl 3 refsConstrW (by decide) (.precondition 7) (by decide)
    7 (by decide)

/-! Persistence round-trip lemmas. -/

theorem decodeProcEntries_encode :
    ∀ (m : List (DefId × SpecGraph)) (rest : List SerTok),
      decodeProcEntries m.length (m.map (fun p => SerTok.procE p.1 p.2) ++ rest) =
        some (m, rest)
  | [], rest => rfl
  | (k, v) :: m, rest => by
      simp [decodeProcEntries, decodeProcEntries_encode m rest]

theorem decodeTypeEntries_encode :
    ∀ (m : List (DefId × TypeSpecification)) (rest : List SerTok),
      decodeTypeEntries m.length (m.map (fun p => SerTok.typeE p.1 p.2) ++ rest) =
        some (m, rest)
  | [], rest => rfl
  | (k, v) :: m, rest => by
      simp [decodeTypeEntries, decodeTypeEntries_encode m rest]

theorem decodeBodyEntries_encode :
    ∀ (m : List (Nat × Nat)) (rest : List SerTok),
      decodeBodyEntries m.length (m.map (fun p => SerTok.bodyE p.1 p.2) ++ rest) =
        some (m, rest)
  | [], rest => rfl
  | (k, v) :: m, rest => by
      simp [decodeBodyEntries, decodeBodyEntries_encode m rest]

theorem decodeProcMap_encode (ps : List (DefId × SpecGraph)) (rest : List SerTok) :
    decodeProcMap (encodeProcMap ps ++ rest) = some (ps, rest) := by
  rw [encodeProcMap, List.cons_append, decodeProcMap]
  simp [decodeNat, decodeProcEntries_encode]

theorem decodeTypeMap_encode (ts : List (DefId × TypeSpecification)) (rest : List SerTok) :
    decodeTypeMap (encodeTypeMap ts ++ rest) = some (ts, rest) := by
  rw [encodeTypeMap, List.cons_append, decodeTypeMap]
  simp [decodeNat, decodeTypeEntries_encode]

theorem decodeBodies_encode (bs : List (Nat × Nat)) :
    decodeBodies (encodeBodies bs) = some (bs, []) := by
  rw [encodeBodies, decodeBodies]
  have h := decodeBodyEntries_encode bs []
  rw [List.append_nil] at h
  simp [decodeNat, h]

/-- C4: export followed by import is the identity on content — writing a
map with `write_into_file` and decoding the result with
`import_from_file` into the empty map restores exactly the original
procedure and type entries (and bodies), the decoder consuming the three
sections in the same fixed order the encoder wrote them. -/
theorem persistence_round_trip (m : DefSpecificationMap) (bodies : List (Nat × Nat))
    (hp : (m.proc_specs.map Prod.fst).Nodup)
    (ht : (m.type_specs.map Prod.fst).Nodup) :
    import_from_file DefSpecificationMap.emptyMap (write_into_file m bodies) =
      some (m, bodies) := by
  rw [write_into_file, List.append_assoc, import_from_file]
  simp only [decodeProcMap_encode, decodeTypeMap_encode, decodeBodies_encode]
  have hps : m.proc_specs.foldl (fun acc p => ainsert p.1 p.2 acc) [] = m.proc_specs := by
    have := foldl_ainsert_fresh m.proc_specs [] hp (by simp)
    simpa using this
  have hts : m.type_specs.foldl (fun acc p => ainsert p.1 p.2 acc) [] = m.type_specs := by
    have := foldl_ainsert_fresh m.type_specs [] ht (by simp)
    simpa using this
  simp [import_external, DefSpecificationMap.emptyMap, hps, hts]

/-- C4 witness: round trip of a map with one procedure specification and
one type specification plus one body. -/
theorem persistence_round_trip_witness :
    import_from_file DefSpecificationMap.emptyMap (write_into_file mapW [(1, 2)]) =
      some (mapW, [(1, 2)]) :=
  persistence_round_trip mapW [(1, 2)] (by decide) (by decide)

/-- C6: a type scanner record with a non-empty invariant set, while the
type-invariants feature is disabled, triggers the feature diagnostic but
— unlike the procedure gating case, compare `ghost_constraint_gating` —
the type's record is still inserted, with the invariant set and trusted
flag copied verbatim. -/
theorem type_invariant_gating (cfg : Config) :
    ∀ (records : List (LocalDefId × TypeSpecRefs)) (t : LocalDefId) (refs : TypeSpecRefs),
      (records.map Prod.fst).Nodup →
      (t, refs) ∈ records →
      refs.invariants ≠ [] →
      cfg.enable_type_invariants = false →
      (⟨.unsupported, typeInvMsg, .ofDef t⟩ : Diagnostic) ∈
          (determine_type_specs cfg records).2 ∧
      alookup t (determine_type_specs cfg records).1 =
        some ⟨t, .inherent refs.invariants, .inherent refs.trusted⟩
  | [], t, refs => by
      intro _ hmem
      cases hmem
  | (t0, refs0) :: rest, t, refs => by
      intro hnd hmem hinv hcfg
      rw [List.map_cons, List.nodup_cons] at hnd
      have hfst : (determine_type_specs cfg ((t0, refs0) :: rest)).1 =
          ainsert t0 ⟨t0, .inherent refs0.invariants, .inherent refs0.trusted⟩
            (determine_type_specs cfg rest).1 := rfl
      have hsnd : (determine_type_specs cfg ((t0, refs0) :: rest)).2 =
          (if !refs0.invariants.isEmpty && !cfg.enable_type_invariants then
            [⟨.unsupported, typeInvMsg, .ofDef t0⟩] else []) ++
            (determine_type_specs cfg rest).2 := rfl
      rcases List.mem_cons.mp hmem with hhd | htl
      · injection hhd with h1 h2
        subst h1
        subst h2
        constructor
        · rw [hsnd]
          have hc : (!refs.invariants.isEmpty && !cfg.enable_type_invariants) = true := by
            simp [hinv, hcfg]
          rw [hc]
          simp
        · rw [hfst]
          exact alookup_ainsert_self _ _ _
      · have htmem : t ∈ rest.map Prod.fst := List.mem_map.mpr ⟨(t, refs), htl, rfl⟩
        have hlt : t0 ≠ t := fun hc => hnd.1 (hc ▸ htmem)
        obtain ⟨ih1, ih2⟩ := type_invariant_gating cfg rest t refs hnd.2 htl hinv hcfg
        constructor
        · rw [hsnd]
          exact List.mem_append.mpr (Or.inr ih1)
        · rw [hfst, alookup_ainsert_ne t t0 _ hlt]
          exact ih2

/-- C6 witness: type `8` with invariant entity `2` and `trusted = true`,
feature disabled — the diagnostic fires and the record is still
inserted verbatim. -/
theorem type_invariant_gating_witness :
    (⟨.unsupported, typeInvMsg, .ofDef 8⟩ : Diagnostic) ∈
        (determine_type_specs ⟨true, false⟩ recordsTypeW).2 ∧
    alookup 8 (determine_type_specs ⟨true, false⟩ recordsTypeW).1 =
      some ⟨8, .inherent [2], .inherent true⟩ :=
  type_invariant_gating ⟨true, false⟩ recordsTypeW 8 ⟨[2], true⟩
    (by decide) (by decide) (by decide) rfl

/-- C8: the body materializer loads, in order, every specification-clause
body, then every body of a `Pure`-classified procedure, then every
predicate body — except that a pure function without a body is skipped. -/
theorem materializer_order (has_body : DefId → Bool)
    (specs pure_fns predicates : List DefId) :
    ensure_local_mirs_fetched has_body specs pure_fns predicates =
      specs.map LoadEvent.specBody ++
      (pure_fns.filter has_body).map LoadEvent.pureBody ++
      predicates.map LoadEvent.predBody := by
  rw [ensure_local_mirs_fetched]
  rw [foldl_append_map, foldl_filter_append_map, foldl_append_map]
  simp

theorem importLoop_char :
    ∀ (crates : List Nat) (lc : Nat) (art : Nat → Option (Except String ImportData))
      (m : DefSpecificationMap) (ds : List Diagnostic),
      crates.foldl (importStep lc art) (m, ds) =
        ((okArtifacts crates lc art).foldl import_external m,
         ds ++ (failedCrates crates lc art).map
           (fun _ => ⟨.internal, importErrMsg, .dummy⟩))
  | [], lc, art, m, ds => by simp [okArtifacts, failedCrates]
  | c :: rest, lc, art, m, ds => by
      rw [List.foldl_cons]
      by_cases hc : c = lc
      · have hstep : importStep lc art (m, ds) c = (m, ds) := by
          simp [importStep, hc]
        rw [hstep, importLoop_char rest lc art m ds]
        have hok : okArtifacts (c :: rest) lc art = okArtifacts rest lc art := by
          simp [okArtifacts, List.filterMap_cons, hc]
        have hfail : failedCrates (c :: rest) lc art = failedCrates rest lc art := by
          simp [failedCrates, List.filter_cons, hc]
        rw [hok, hfail]
      · cases hart : art c with
        | none =>
            have hstep : importStep lc art (m, ds) c = (m, ds) := by
              simp [importStep, hc, hart]
            rw [hstep, importLoop_char rest lc art m ds]
            have hok : okArtifacts (c :: rest) lc art = okArtifacts rest lc art := by
              simp [okArtifacts, List.filterMap_cons, hc, hart]
            have hfail : failedCrates (c :: rest) lc art = failedCrates rest lc art := by
              simp [failedCrates, List.filter_cons, hc, hart, isErrArtifact]
            rw [hok, hfail]
        | some e =>
            cases e with
            | error msg =>
                have hstep : importStep lc art (m, ds) c =
                    (m, ds ++ [⟨.internal, importErrMsg, .dummy⟩]) := by
                  simp [importStep, hc, hart]
                have h2 := importLoop_char rest lc art m
                  (ds ++ [(⟨.internal, importErrMsg, .dummy⟩ : Diagnostic)])
                rw [hstep, h2]
                have hok : okArtifacts (c :: rest) lc art = okArtifacts rest lc art := by
                  simp [okArtifacts, List.filterMap_cons, hc, hart]
                have hfail : failedCrates (c :: rest) lc art =
                    c :: failedCrates rest lc art := by
                  simp [failedCrates, List.filter_cons, hc, hart, isErrArtifact]
                rw [hok, hfail]
                simp
            | ok d =>
                have hstep : importStep lc art (m, ds) c = (import_external m d, ds) := by
                  simp [importStep, hc, hart]
                rw [hstep, importLoop_char rest lc art (import_external m d) ds]
                have hok : okArtifacts (c :: rest) lc art = d :: okArtifacts rest lc art := by
                  simp [okArtifacts, List.filterMap_cons, hc, hart]
                have hfail : failedCrates (c :: rest) lc art = failedCrates rest lc art := by
                  simp [failedCrates, List.filter_cons, hc, hart, isErrArtifact]
                rw [hok, hfail]
                simp

/-- C7: any export failure and any import failure is reported as an
internal diagnostic at the synthetic (`DUMMY_SP`) position and the
operation is abandoned: the returned map is exactly the input map merged
with the successfully decoded artifacts of the dependency crates (the
current crate and crates without an artifact file are skipped, failing
artifacts contribute nothing), and the diagnostics are exactly one
internal dummy-span diagnostic for a failed export plus one per failing
dependency artifact — the pass always returns the map. -/
theorem persistence_failures_nonfatal (env : DepEnv) (er : Except String Unit)
    (m : DefSpecificationMap) :
    (build_def_specs_persist env er m).1 =
      (okArtifacts env.crates env.local_crate env.artifact).foldl import_external m ∧
    (build_def_specs_persist env er m).2 =
      (match er with
       | .error _ => [⟨.internal, exportErrMsg, .dummy⟩]
       | .ok _ => []) ++
      (failedCrates env.crates env.local_crate env.artifact).map
        (fun _ => ⟨.internal, importErrMsg, .dummy⟩) := by
  have h := importLoop_char env.crates env.local_crate env.artifact m []
  unfold build_def_specs_persist import_specs_from_dependencies
  rw [h]
  cases er <;> simp

theorem isEmpty_append {α : Type} (l1 l2 : List α) :
    (l1 ++ l2).isEmpty = (l1.isEmpty && l2.isEmpty) := by
  cases l1 <;> simp

theorem isEmpty_map {α β : Type} (f : α → β) (l : List α) :
    (l.map f).isEmpty = l.isEmpty := by
  cases l <;> rfl

theorem collectedSpecIdRefs_isEmpty (attrs : FnAttrs) (ap : List SpecIdRef)
    (hap : assertPledgeRefs attrs.assert_pledge_lhs attrs.assert_pledge_rhs = some ap) :
    (collectedSpecIdRefs attrs ap).isEmpty = !hasSpecRefAttr attrs := by
  cases hl : attrs.assert_pledge_lhs with
  | some l =>
      cases hr : attrs.assert_pledge_rhs with
      | some r =>
          rw [hl, hr] at hap
          rw [assertPledgeRefs] at hap
          injection hap with hap
          subst hap
          rw [collectedSpecIdRefs, hasSpecRefAttr, hl, hr]
          simp [isEmpty_append]
      | none =>
          rw [hl, hr] at hap
          cases hap
  | none =>
      cases hr : attrs.assert_pledge_rhs with
      | some r =>
          rw [hl, hr] at hap
          cases hap
      | none =>
          rw [hl, hr] at hap
          rw [assertPledgeRefs] at hap
          injection hap with hap
          subst hap
          rw [collectedSpecIdRefs, hasSpecRefAttr, hl, hr]
          cases hp : attrs.pred_ref with
          | none =>
              simp [isEmpty_append, isEmpty_map, Bool.not_or, Bool.and_assoc]
          | some s =>
              simp [isEmpty_append, isEmpty_map, Bool.not_or, Bool.and_assoc]

/-- C9: `get_procedure_spec_ids` produces a scanner record exactly when
the attributes yield at least one specification reference or set one of
the `abstract_predicate` / `pure` / `trusted` flags (given a well-formed
assert-pledge pair); a specification-free function is therefore never
recorded by `visit_fn`'s procedure collection, and every key of the map
built by `determine_procedure_specs` comes from a scanner record — so an
unannotated function contributes no entry to the final procedure map. -/
theorem scanner_record_iff :
    (∀ attrs : FnAttrs,
      ((∃ r, get_procedure_spec_ids attrs = some (some r)) ↔
        (assertPledgeRefs attrs.assert_pledge_lhs attrs.assert_pledge_rhs ≠ none ∧
         (attrs.abstract_predicate || attrs.pure || attrs.trusted ||
           hasSpecRefAttr attrs) = true))) ∧
    (∀ (env : VisitEnv) (s : CollectorState) (local_id : LocalDefId) (attrs : FnAttrs)
       (s' : CollectorState),
      attrs.spec_id = none →
      get_procedure_spec_ids attrs = some none →
      visit_fn env s local_id attrs = some s' →
      s'.procedure_specs = s.procedure_specs) ∧
    (∀ (cfg : Config) (sf : List (SpecificationId × LocalDefId)) (env : BuildEnv)
       (records : List (LocalDefId × ProcedureSpecRefs))
       (out : List (DefId × SpecGraph) × List Diagnostic),
      determine_procedure_specs cfg sf env records = some out →
      ∀ d, (alookup d out.1).isSome = true → d ∈ records.map Prod.fst) := by
  refine ⟨?_, ?_, ?_⟩
  · intro attrs
    cases hap : assertPledgeRefs attrs.assert_pledge_lhs attrs.assert_pledge_rhs with
    | none =>
        constructor
        · rintro ⟨r, hr⟩
          rw [get_procedure_spec_ids, hap] at hr
          cases hr
        · rintro ⟨hne, _⟩
          exact absurd rfl hne
    | some ap =>
        have hbig := collectedSpecIdRefs_isEmpty attrs ap hap
        constructor
        · rintro ⟨r, hr⟩
          simp only [get_procedure_spec_ids, hap] at hr
          by_cases hcond : (attrs.abstract_predicate || attrs.pure || attrs.trusted ||
              !(collectedSpecIdRefs attrs ap).isEmpty) = true
          · refine ⟨by simp [hap], ?_⟩
            rw [hbig, Bool.not_not] at hcond
            exact hcond
          · rw [if_neg hcond] at hr
            cases hr
        · rintro ⟨_, hcond⟩
          simp only [get_procedure_spec_ids, hap]
          have hcond' : (attrs.abstract_predicate || attrs.pure || attrs.trusted ||
              !(collectedSpecIdRefs attrs ap).isEmpty) = true := by
            rw [hbig, Bool.not_not]
            exact hcond
          rw [if_pos hcond']
          exact ⟨_, rfl⟩
  · intro env s local_id attrs s' hsid hget h
    rw [visit_fn, hsid, hget] at h
    injection h with h
    rw [← h]
    by_cases hb : attrs.has_extern_spec <;> simp [hb]
  · intro cfg sf env records out h d hd
    exact determine_proc_keys cfg sf env records out h d hd

/-- C9 witness: an extern-spec stand-in with no specification reference
and no flag gets no scanner record, so its procedure map is untouched. -/
theorem scanner_record_iff_witness :
    stateExternW.procedure_specs = emptyState.procedure_specs :=
  scanner_record_iff.2.1 visitEnvW emptyState 4 attrsExternW stateExternW rfl rfl rfl

theorem recordInvariantMarker_frame (env : VisitEnv) (l : LocalDefId)
    (s s3 : CollectorState) (h : recordInvariantMarker env l s = some s3) :
    s3.procedure_specs = s.procedure_specs ∧ s3.extern_fns = s.extern_fns ∧
    s3.spec_functions = s.spec_functions := by
  cases himpl : env.implTypeOf l with
  | none => rw [recordInvariantMarker, himpl] at h; cases h
  | some t =>
      rw [recordInvariantMarker, himpl] at h
      injection h with h
      rw [← h]
      exact ⟨rfl, rfl, rfl⟩

theorem recordTrustedTypeMarker_frame (env : VisitEnv) (l : LocalDefId)
    (s s3 : CollectorState) (h : recordTrustedTypeMarker env l s = some s3) :
    s3.procedure_specs = s.procedure_specs ∧ s3.extern_fns = s.extern_fns ∧
    s3.spec_functions = s.spec_functions := by
  cases himpl : env.implTypeOf l with
  | none => rw [recordTrustedTypeMarker, himpl] at h; cases h
  | some t =>
      rw [recordTrustedTypeMarker, himpl] at h
      injection h with h
      rw [← h]
      exact ⟨rfl, rfl, rfl⟩

theorem typeMarkerStep_frame (b : Bool) (env : VisitEnv) (l : LocalDefId)
    (s s3 : CollectorState) (h : typeMarkerStep b env l s = some s3) :
    s3.procedure_specs = s.procedure_specs ∧ s3.extern_fns = s.extern_fns ∧
    s3.spec_functions = s.spec_functions := by
  by_cases hb : b
  · rw [typeMarkerStep, if_pos hb] at h
    exact recordInvariantMarker_frame env l s s3 h
  · rw [typeMarkerStep, if_neg hb] at h
    injection h with h
    rw [← h]
    exact ⟨rfl, rfl, rfl⟩

theorem trustedMarkerStep_frame (b : Bool) (env : VisitEnv) (l : LocalDefId)
    (s s3 : CollectorState) (h : trustedMarkerStep b env l s = some s3) :
    s3.procedure_specs = s.procedure_specs ∧ s3.extern_fns = s.extern_fns ∧
    s3.spec_functions = s.spec_functions := by
  by_cases hb : b
  · rw [trustedMarkerStep, if_pos hb] at h
    exact recordTrustedTypeMarker_frame env l s s3 h
  · rw [trustedMarkerStep, if_neg hb] at h
    injection h with h
    rw [← h]
    exact ⟨rfl, rfl, rfl⟩

theorem specItemSteps_frame (env : VisitEnv) (l : LocalDefId) (attrs : FnAttrs)
    (s1 s' : CollectorState) (h : specItemSteps env l attrs s1 = some s') :
    s'.procedure_specs = s1.procedure_specs ∧ s'.extern_fns = s1.extern_fns ∧
    s'.spec_functions = s1.spec_functions := by
  rw [specItemSteps] at h
  obtain ⟨s3, h3, h'⟩ := Option.bind_eq_some.mp h
  obtain ⟨s4, h4, h5⟩ := Option.map_eq_some'.mp h'
  have hP2 : (loopStep attrs.loop_body_invariant_spec l s1).procedure_specs =
        s1.procedure_specs ∧
      (loopStep attrs.loop_body_invariant_spec l s1).extern_fns = s1.extern_fns ∧
      (loopStep attrs.loop_body_invariant_spec l s1).spec_functions = s1.spec_functions := by
    by_cases hb : attrs.loop_body_invariant_spec <;> simp [loopStep, hb]
  have hP3 : s3.procedure_specs = s1.procedure_specs ∧ s3.extern_fns = s1.extern_fns ∧
      s3.spec_functions = s1.spec_functions := by
    obtain ⟨a, b, c⟩ := typeMarkerStep_frame attrs.type_invariant_spec env l _ s3 h3
    exact ⟨a.trans hP2.1, b.trans hP2.2.1, c.trans hP2.2.2⟩
  have hP4 : s4.procedure_specs = s1.procedure_specs ∧ s4.extern_fns = s1.extern_fns ∧
      s4.spec_functions = s1.spec_functions := by
    obtain ⟨a, b, c⟩ := trustedMarkerStep_frame attrs.trusted_type env l s3 s4 h4
    exact ⟨a.trans hP3.1, b.trans hP3.2.1, c.trans hP3.2.2⟩
  rw [← h5]
  have htail : ∀ s0 : CollectorState,
              (ghostEndStep attrs.ghost_end l
                (ghostBeginStep attrs.ghost_begin l
                  (assumeStep attrs.prusti_assumption l
                    (assertStep attrs.prusti_assertion l s0)))).procedure_specs =
                  s0.procedure_specs ∧
              (ghostEndStep attrs.ghost_end l
                (ghostBeginStep attrs.ghost_begin l
                  (assumeStep attrs.prusti_assumption l
                    (assertStep attrs.prusti_assertion l s0)))).extern_fns =
                  s0.extern_fns ∧
              (ghostEndStep attrs.ghost_end l
                (ghostBeginStep attrs.ghost_begin l
                  (assumeStep attrs.prusti_assumption l
                    (assertStep attrs.prusti_assertion l s0)))).spec_functions =
                  s0.spec_functions := by
            intro s0
            by_cases h5 : attrs.prusti_assertion <;>
              by_cases h6 : attrs.prusti_assumption <;>
                by_cases h7 : attrs.ghost_begin <;>
                  by_cases h8 : attrs.ghost_end <;>
                    simp [assertStep, assumeStep, ghostBeginStep, ghostEndStep,
                      h5, h6, h7, h8]
  obtain ⟨a, b, c⟩ := htail s4
  exact ⟨a.trans hP4.1, b.trans hP4.2.1, c.trans hP4.2.2⟩

/-- C10: the two collection modes of `visit_fn` are mutually exclusive —
a function carrying a `spec_id` attribute is registered in the
specification-body table and is never recorded as an annotated procedure
nor as an extern-spec stand-in (even if it also carries `pure`,
`trusted` or spec-reference attributes); a function without a `spec_id`
attribute never touches the specification-body table or the side
records, and only it feeds the extern-spec and procedure-spec
collections. -/
theorem visit_fn_modes_exclusive (env : VisitEnv) (s : CollectorState)
    (local_id : LocalDefId) (attrs : FnAttrs) (s' : CollectorState)
    (h : visit_fn env s local_id attrs = some s') :
    ((∀ sid, attrs.spec_id = some sid →
        s'.procedure_specs = s.procedure_specs ∧
        s'.extern_fns = s.extern_fns ∧
        s'.spec_functions = ainsert sid local_id s.spec_functions) ∧
     (attrs.spec_id = none →
        s'.spec_functions = s.spec_functions ∧
        s'.loop_specs = s.loop_specs ∧
        s'.type_specs = s.type_specs ∧
        s'.prusti_assertions = s.prusti_assertions ∧
        s'.prusti_assumptions = s.prusti_assumptions ∧
        s'.ghost_begin = s.ghost_begin ∧
        s'.ghost_end = s.ghost_end ∧
        (attrs.has_extern_spec = true →
          s'.extern_fns = s.extern_fns ++ [local_id]) ∧
        (attrs.has_extern_spec = false → s'.extern_fns = s.extern_fns))) := by
  constructor
  · intro sid hsid
    rw [visit_fn, hsid] at h
    obtain ⟨a, b, c⟩ := specItemSteps_frame env local_id attrs _ s' h
    exact ⟨a, b, c⟩
  · intro hsid
    rw [visit_fn, hsid] at h
    cases hget : get_procedure_spec_ids attrs with
    | none => rw [hget] at h; cases h
    | some o =>
        rw [hget] at h
        cases o with
        | none =>
            injection h with h
            rw [← h]
            by_cases hb : attrs.has_extern_spec <;> simp [hb]
        | some refs =>
            injection h with h
            rw [← h]
            by_cases hb : attrs.has_extern_spec <;> simp [hb]

/-- C10 witness: a specification-body item carrying `spec_id = 7`, the
`pure` and `trusted` flags and a precondition reference is registered in
the specification-body table but recorded neither as a procedure nor as
an extern stand-in. -/
theorem visit_fn_modes_exclusive_witness :
    stateSpecW.procedure_specs = emptyState.procedure_specs ∧
    stateSpecW.extern_fns = emptyState.extern_fns ∧
    stateSpecW.spec_functions = ainsert 7 4 emptyState.spec_functions :=
  (visit_fn_modes_exclusive visitEnvW emptyState 4 attrsSpecItem stateSpecW rfl).1 7 rfl
